import Mathlib

/-!
Shallow embedding of the background-jobs runtime (jobs-core and jobs-sled
crates): job metadata, retry/backoff policy, statistics, the in-memory
reference storage backend and the sled-backed storage backend, together with
the provided (default) storage operations `new_job`, `request_job` and
`return_job`.

Machine integers are modelled as `Nat`/`Int`; wrapping arithmetic is made
explicit (`% 2 ^ 32`, `% 2 ^ 64`) at the places where the Rust code can wrap
in release mode.  Wall-clock timestamps are modelled as a structure carrying
the instant in seconds (chrono orders `DateTime<Utc>` by instant) together
with the calendar fields (`month`, `day`, `hour`) that the statistics code
reads; `Utc::now()` is an input, threaded explicitly into every operation
that calls it.  Hash maps and sled trees are modelled as association lists;
their iteration order stands in for the unspecified iteration order of the
real containers.
-/

namespace BackJob

/-- JSON-shaped opaque argument value (`serde_json::Value` in the source).
Only its equality and (for the processor registry) an abstract deserializer
are ever consulted. -/
inductive Value where
  | null : Value
  | num : Int → Value
  | str : String → Value
deriving DecidableEq, Repr

/-- A wall-clock timestamp: the instant in whole seconds, plus the calendar
fields the statistics roll-over code reads.  chrono compares `DateTime<Utc>`
values by instant, which the `sec` field models. -/
structure DateTime where
  sec : Int
  month : Nat
  day : Nat
  hour : Nat
deriving DecidableEq, Repr

/-- `now + Duration::seconds(s)` — only the instant moves. -/
def DateTime.addSecs (t : DateTime) (s : Int) : DateTime :=
  { t with sec := t.sec + s }

/-- Reinterpretation of a `usize` value as `i64` (the `secs as i64` cast in
`JobInfo::next_queue`). -/
def i64ofNat (n : Nat) : Int :=
  let m : Nat := n % 2 ^ 64
  if m < 2 ^ 63 then (m : Int) else (m : Int) - 2 ^ 64

/-- Association-list lookup, mirroring `HashMap::get` / sled `Tree::get`. -/
def mapLookup {α β : Type} [DecidableEq α] : List (α × β) → α → Option β
  | [], _ => none
  | (k', v) :: rest, k => if k' = k then some v else mapLookup rest k

/-- Association-list removal, mirroring `HashMap::remove` / sled `Tree::del`. -/
def mapRemove {α β : Type} [DecidableEq α] : List (α × β) → α → List (α × β)
  | [], _ => []
  | (k', v) :: rest, k =>
      if k' = k then mapRemove rest k else (k', v) :: mapRemove rest k

/-- Association-list insert-or-overwrite, mirroring `HashMap::insert` /
sled `Tree::set`. -/
def mapInsert {α β : Type} [DecidableEq α] (m : List (α × β)) (k : α) (v : β) :
    List (α × β) :=
  (k, v) :: mapRemove m k

@[simp]
theorem mapLookup_nil {α β : Type} [DecidableEq α] (k : α) :
    mapLookup ([] : List (α × β)) k = none := rfl

@[simp]
theorem mapLookup_cons {α β : Type} [DecidableEq α] (k' k : α) (v : β)
    (rest : List (α × β)) :
    mapLookup ((k', v) :: rest) k =
      if k' = k then some v else mapLookup rest k := rfl

@[simp]
theorem mapRemove_nil {α β : Type} [DecidableEq α] (k : α) :
    mapRemove ([] : List (α × β)) k = [] := rfl

@[simp]
theorem mapRemove_cons {α β : Type} [DecidableEq α] (k' k : α) (v : β)
    (rest : List (α × β)) :
    mapRemove ((k', v) :: rest) k =
      if k' = k then mapRemove rest k else (k', v) :: mapRemove rest k := rfl

@[simp]
theorem mapLookup_remove_self {α β : Type} [DecidableEq α]
    (m : List (α × β)) (k : α) : mapLookup (mapRemove m k) k = none := by
  induction m with
  | nil => rfl
  | cons p rest ih =>
    obtain ⟨a, v⟩ := p
    by_cases h : a = k <;> simp [h, ih]

theorem mapLookup_remove_ne {α β : Type} [DecidableEq α]
    (m : List (α × β)) (k k' : α) (h : k' ≠ k) :
    mapLookup (mapRemove m k) k' = mapLookup m k' := by
  induction m with
  | nil => rfl
  | cons p rest ih =>
    obtain ⟨a, v⟩ := p
    by_cases ha : a = k
    · subst ha
      have ha' : ¬ (a = k') := fun hh => h hh.symm
      simp [ha', ih]
    · by_cases hb : a = k'
      · subst hb
        simp [ha]
      · simp [ha, hb, ih]

@[simp]
theorem mapLookup_insert_self {α β : Type} [DecidableEq α]
    (m : List (α × β)) (k : α) (v : β) :
    mapLookup (mapInsert m k v) k = some v := by
  simp [mapInsert]

theorem mapLookup_insert_ne {α β : Type} [DecidableEq α]
    (m : List (α × β)) (k k' : α) (v : β) (h : k' ≠ k) :
    mapLookup (mapInsert m k v) k' = mapLookup m k' := by
  have hk : ¬ (k = k') := fun hh => h hh.symm
  simp [mapInsert, hk]
  exact mapLookup_remove_ne m k k' h

theorem mapRemove_of_lookup_none {α β : Type} [DecidableEq α]
    (m : List (α × β)) (k : α) (h : mapLookup m k = none) :
    mapRemove m k = m := by
  induction m with
  | nil => rfl
  | cons p rest ih =>
    obtain ⟨a, v⟩ := p
    by_cases ha : a = k
    · simp [ha] at h
    · simp [ha] at h
      simp [ha, ih h]

/-- `JobStatus` from jobs-core/src/lib.rs: terminal outcomes delete the
record, so only `Pending` and `Running` are persisted. -/
inductive JobStatus where
  | Pending : JobStatus
  | Running : JobStatus
deriving DecidableEq, Repr

/-- `Backoff` from jobs-core/src/lib.rs. -/
inductive Backoff where
  | Linear : Nat → Backoff
  | Exponential : Nat → Backoff
deriving DecidableEq, Repr

/-- `MaxRetries` from jobs-core/src/lib.rs. -/
inductive MaxRetries where
  | Infinite : MaxRetries
  | Count : Nat → MaxRetries
deriving DecidableEq, Repr

/-- `ShouldStop` from jobs-core/src/lib.rs. -/
inductive ShouldStop where
  | LimitReached : ShouldStop
  | Requeue : ShouldStop
deriving DecidableEq, Repr

/-- `ShouldStop::should_requeue`. -/
def ShouldStop.should_requeue : ShouldStop → Bool
  | .LimitReached => false
  | .Requeue => true

/-- `MaxRetries::compare(retry_count)`: requeue while `retry_count <= count`. -/
def MaxRetries.compare (m : MaxRetries) (retry_count : Nat) : ShouldStop :=
  match m with
  | .Infinite => .Requeue
  | .Count count =>
      if retry_count ≤ count then .Requeue else .LimitReached

/-- `JobResult` from jobs-core/src/lib.rs. -/
inductive JobResult where
  | Success : JobResult
  | Failure : JobResult
  | MissingProcessor : JobResult
deriving DecidableEq, Repr

/-- `ReturnJobInfo` from jobs-core/src/job_info.rs. -/
structure ReturnJobInfo where
  id : Nat
  result : JobResult
deriving DecidableEq, Repr

/-- `JobInfo` from jobs-core/src/job_info.rs (stored job record).
`retry_count` is a `u32` in the source; wrapping is made explicit at the one
place it is incremented. -/
structure JobInfo where
  id : Nat
  processor : String
  queue : String
  args : Value
  status : JobStatus
  retry_count : Nat
  max_retries : MaxRetries
  backoff_strategy : Backoff
  next_queue : Option DateTime
  updated_at : DateTime
deriving DecidableEq, Repr

/-- `NewJobInfo` from jobs-core/src/job_info.rs (pre-id job record). -/
structure NewJobInfo where
  processor : String
  queue : String
  args : Value
  max_retries : MaxRetries
  backoff_strategy : Backoff
  next_queue : Option DateTime
deriving DecidableEq, Repr

/-- `NewJobInfo::with_id`: produce the stored job, status `Pending`,
`retry_count` 0, `updated_at` the current instant. -/
def NewJobInfo.with_id (new : NewJobInfo) (id : Nat) (now : DateTime) :
    JobInfo :=
  { id := id
    processor := new.processor
    queue := new.queue
    args := new.args
    status := JobStatus.Pending
    retry_count := 0
    max_retries := new.max_retries
    backoff_strategy := new.backoff_strategy
    next_queue := new.next_queue
    updated_at := now }

/-- `JobInfo::updated`: refresh `updated_at`. -/
def JobInfo.updated (job : JobInfo) (now : DateTime) : JobInfo :=
  { job with updated_at := now }

/-- `JobInfo::increment`: refresh `updated_at`, bump `retry_count`
(wrapping `u32` addition), and compare against the policy. -/
def JobInfo.increment (job : JobInfo) (now : DateTime) :
    ShouldStop × JobInfo :=
  let job := job.updated now
  let job := { job with retry_count := (job.retry_count + 1) % 2 ^ 32 }
  (job.max_retries.compare job.retry_count, job)

/-- `JobInfo::next_queue` (the mutator): schedule the next attempt at
`now + secs` with `secs` from the backoff policy; `usize::pow` wraps in
release mode and the result is cast to `i64`. -/
def JobInfo.set_next_queue (job : JobInfo) (now : DateTime) : JobInfo :=
  let secs : Nat :=
    match job.backoff_strategy with
    | .Linear secs => secs
    | .Exponential base => base ^ job.retry_count % 2 ^ 64
  { job with next_queue := some (now.addSecs (i64ofNat secs)) }

/-- `JobInfo::is_ready(now)`: ready iff `next_queue` is absent or strictly
before `now`. -/
def JobInfo.is_ready (job : JobInfo) (now : DateTime) : Bool :=
  match job.next_queue with
  | some time => decide (time.sec < now.sec)
  | none => true

/-- `JobInfo::is_pending`. -/
def JobInfo.is_pending (job : JobInfo) : Bool :=
  match job.status with
  | .Pending => true
  | .Running => false

/-- `JobInfo::is_in_queue(queue)`. -/
def JobInfo.is_in_queue (job : JobInfo) (queue : String) : Bool :=
  decide (job.queue = queue)

/-- `JobInfo::run`: refresh `updated_at` and flip the status to `Running`. -/
def JobInfo.run (job : JobInfo) (now : DateTime) : JobInfo :=
  { job.updated now with status := JobStatus.Running }

/-- `JobInfo::pending`: refresh `updated_at` and flip the status to
`Pending`. -/
def JobInfo.pending (job : JobInfo) (now : DateTime) : JobInfo :=
  { job.updated now with status := JobStatus.Pending }

/-- `JobInfo::needs_retry`: increment the retry counter; when the policy
allows a requeue, reset to pending and schedule the next attempt.  Returns
the decision together with the mutated job. -/
def JobInfo.needs_retry (job : JobInfo) (now : DateTime) : Bool × JobInfo :=
  let (sstop, job) := job.increment now
  let should_retry := sstop.should_requeue
  if should_retry then (true, (job.pending now).set_next_queue now)
  else (false, job)

/-- `JobStat` from jobs-core/src/stats.rs: one rolling counter. -/
structure JobStat where
  this_hour : Nat
  today : Nat
  this_month : Nat
  all_time : Nat
  updated_at : DateTime
deriving DecidableEq, Repr

/-- `JobStat::tick`: roll windows over when the wall clock crossed an
hour/day/month boundary since the last update. -/
def JobStat.tick (s : JobStat) (now : DateTime) : JobStat :=
  let s :=
    if now.month ≠ s.updated_at.month then
      { s with this_hour := 0, today := 0, this_month := 0 }
    else if now.day ≠ s.updated_at.day then
      { s with this_hour := 0, today := 0 }
    else if now.hour ≠ s.updated_at.hour then
      { s with this_hour := 0 }
    else s
  { s with updated_at := now }

/-- `JobStat::increment`: tick, then bump every window. -/
def JobStat.increment (s : JobStat) (now : DateTime) : JobStat :=
  let s := s.tick now
  { s with
      this_hour := s.this_hour + 1
      today := s.today + 1
      this_month := s.this_month + 1
      all_time := s.all_time + 1 }

/-- `Stats` from jobs-core/src/stats.rs.  `pending` and `running` are
`usize` in the source; they are modelled as `Int` so that the absence of
underflow is a provable property rather than a typing artefact — every
decrement in the source is guarded by a positivity test. -/
structure Stats where
  pending : Int
  running : Int
  dead : JobStat
  complete : JobStat
deriving DecidableEq, Repr

/-- `Stats::new_job`: one more pending job. -/
def Stats.new_job (s : Stats) : Stats :=
  { s with pending := s.pending + 1 }

/-- `Stats::run_job`: a pending job (if any) became running. -/
def Stats.run_job (s : Stats) : Stats :=
  let s := if s.pending > 0 then { s with pending := s.pending - 1 } else s
  { s with running := s.running + 1 }

/-- `Stats::retry_job`: a running job went back to pending. -/
def Stats.retry_job (s : Stats) : Stats :=
  let s := { s with pending := s.pending + 1 }
  if s.running > 0 then { s with running := s.running - 1 } else s

/-- `Stats::fail_job`: a running job died. -/
def Stats.fail_job (s : Stats) (now : DateTime) : Stats :=
  let s := if s.running > 0 then { s with running := s.running - 1 } else s
  { s with dead := s.dead.increment now }

/-- `Stats::complete_job`: a running job completed. -/
def Stats.complete_job (s : Stats) (now : DateTime) : Stats :=
  let s := if s.running > 0 then { s with running := s.running - 1 } else s
  { s with complete := s.complete.increment now }

namespace Memory

/-- `memory_storage::Inner` from jobs-core/src/storage.rs: the state behind
the in-memory reference backend's mutex.  The hash maps are modelled as
association lists; `jobs` maps id to record, `queues` maps id to queue name,
`worker_ids` maps job id to runner id and `worker_ids_inverse` the reverse. -/
structure Inner where
  count : Nat
  jobs : List (Nat × JobInfo)
  queues : List (Nat × String)
  worker_ids : List (Nat × Nat)
  worker_ids_inverse : List (Nat × Nat)
  stats : Stats
deriving DecidableEq, Repr

/-- `memory_storage` `generate_id`: return the counter and advance it with
wrapping `u64` addition. -/
def generate_id (inner : Inner) : Nat × Inner :=
  (inner.count, { inner with count := (inner.count + 1) % 2 ^ 64 })

/-- `memory_storage` `save_job`: insert or overwrite by the job's own id. -/
def save_job (inner : Inner) (job : JobInfo) : Inner :=
  { inner with jobs := mapInsert inner.jobs job.id job }

/-- `memory_storage` `fetch_job`. -/
def fetch_job (inner : Inner) (id : Nat) : Option JobInfo :=
  mapLookup inner.jobs id

/-- `memory_storage` `fetch_job_from_queue`: walk the queue map, take the
first entry of the requested queue whose job record exists, and remove that
job's id from the queue map.  Note that, unlike the sled backend, this
implementation never consults `is_ready`. -/
def fetch_job_from_queue (inner : Inner) (queue : String) :
    Option JobInfo × Inner :=
  let j : Option JobInfo :=
    (inner.queues.filterMap (fun kv =>
      if kv.2 = queue then mapLookup inner.jobs kv.1 else none)).head?
  match j with
  | some job => (some job, { inner with queues := mapRemove inner.queues job.id })
  | none => (none, inner)

/-- `memory_storage` `queue_job`: record the id under the queue name.  The
runner-id maps are left untouched. -/
def queue_job (inner : Inner) (queue : String) (id : Nat) : Inner :=
  { inner with queues := mapInsert inner.queues id queue }

/-- `memory_storage` `run_job`: bind the job id and the worker id in both
directions. -/
def run_job (inner : Inner) (id : Nat) (worker_id : Nat) : Inner :=
  { inner with
      worker_ids := mapInsert inner.worker_ids id worker_id
      worker_ids_inverse := mapInsert inner.worker_ids_inverse worker_id id }

/-- `memory_storage` `delete_job`: drop the record, the queue entry, and the
runner binding in both directions. -/
def delete_job (inner : Inner) (id : Nat) : Inner :=
  let inner :=
    { inner with
        jobs := mapRemove inner.jobs id
        queues := mapRemove inner.queues id }
  match mapLookup inner.worker_ids id with
  | some worker_id =>
      { inner with
          worker_ids := mapRemove inner.worker_ids id
          worker_ids_inverse := mapRemove inner.worker_ids_inverse worker_id }
  | none => inner

/-- `memory_storage` `update_stats`. -/
def update_stats (inner : Inner) (f : Stats → Stats) : Inner :=
  { inner with stats := f inner.stats }

/-- The provided `Storage::new_job`, instantiated at the in-memory backend:
generate an id, persist, queue, bump `stats.pending`. -/
def new_job (inner : Inner) (new : NewJobInfo) (now : DateTime) :
    Nat × Inner :=
  let (id, inner) := generate_id inner
  let job := new.with_id id now
  let queue := job.queue
  let inner := save_job inner job
  let inner := queue_job inner queue id
  let inner := update_stats inner Stats.new_job
  (id, inner)

/-- The provided `Storage::request_job`, instantiated at the in-memory
backend: dequeue a candidate; if it is pending, ready and of the requested
queue, flip it to running, bind the runner and save; otherwise return
nothing (the candidate is not re-queued). -/
def request_job (inner : Inner) (queue : String) (runner_id : Nat)
    (now : DateTime) : Option JobInfo × Inner :=
  match fetch_job_from_queue inner queue with
  | (some job, inner) =>
      if job.is_pending && job.is_ready now && job.is_in_queue queue then
        let job := job.run now
        let inner := run_job inner job.id runner_id
        let inner := save_job inner job
        let inner := update_stats inner Stats.run_job
        (some job, inner)
      else (none, inner)
  | (none, inner) => (none, inner)

/-- The provided `Storage::return_job`, instantiated at the in-memory
backend. -/
def return_job (inner : Inner) (ret : ReturnJobInfo) (now : DateTime) :
    Inner :=
  if ret.result = JobResult.Failure then
    match fetch_job inner ret.id with
    | some job =>
        let (retry, job) := job.needs_retry now
        if retry then
          let inner := queue_job inner job.queue ret.id
          let inner := save_job inner job
          update_stats inner Stats.retry_job
        else
          let inner := delete_job inner ret.id
          update_stats inner (fun s => s.fail_job now)
    | none => inner
  else if ret.result = JobResult.MissingProcessor then
    match fetch_job inner ret.id with
    | some job =>
        let job := job.pending now
        let inner := queue_job inner job.queue ret.id
        let inner := save_job inner job
        update_stats inner Stats.retry_job
    | none => inner
  else
    let inner := delete_job inner ret.id
    update_stats inner (fun s => s.complete_job now)

end Memory

namespace Sled

/-- Key of a job in the sled trees (`job_key` in jobs-sled/src/lib.rs). -/
def job_key (id : Nat) : String := "job-" ++ toString id

/-- Key of a runner in the sled trees (`runner_key`). -/
def runner_key (runner_id : Nat) : String := "runner-" ++ toString runner_id

/-- `SledStorage` from jobs-sled/src/lib.rs: the five data trees (the lock
tree serialises `fetch_job_from_queue` and carries no job state). -/
structure SledStorage where
  jobinfo : List (String × JobInfo)
  running : List (String × Nat)
  running_inverse : List (String × Nat)
  queue : List (String × String)
  stats : Stats
deriving DecidableEq, Repr

/-- sled `save_job`. -/
def save_job (s : SledStorage) (job : JobInfo) : SledStorage :=
  { s with jobinfo := mapInsert s.jobinfo (job_key job.id) job }

/-- sled `fetch_job`. -/
def fetch_job (s : SledStorage) (id : Nat) : Option JobInfo :=
  mapLookup s.jobinfo (job_key id)

/-- sled `fetch_job_from_queue` (the critical section under the queue lock):
take the first entry of the requested queue whose record exists **and is
ready at `now`**, and delete that job's queue entry. -/
def fetch_job_from_queue (s : SledStorage) (queue : String) (now : DateTime) :
    Option JobInfo × SledStorage :=
  let job : Option JobInfo :=
    (((s.queue.filterMap (fun kv =>
          if kv.2 = queue then some kv.1 else none)).filterMap
        (fun id => mapLookup s.jobinfo id)).filter
      (fun job => job.is_ready now)).head?
  match job with
  | some job => (some job, { s with queue := mapRemove s.queue (job_key job.id) })
  | none => (none, s)

/-- sled `queue_job`: clear any runner binding for the id (both directions),
then record the id under the queue name. -/
def queue_job (s : SledStorage) (queue : String) (id : Nat) : SledStorage :=
  let s :=
    match mapLookup s.running_inverse (job_key id) with
    | some runner_id =>
        { s with
            running_inverse := mapRemove s.running_inverse (job_key id)
            running := mapRemove s.running (runner_key runner_id) }
    | none => s
  { s with queue := mapInsert s.queue (job_key id) queue }

/-- sled `run_job`: drop the queue entry and bind id and runner id in both
directions. -/
def run_job (s : SledStorage) (id : Nat) (runner_id : Nat) : SledStorage :=
  { s with
      queue := mapRemove s.queue (job_key id)
      running := mapInsert s.running (runner_key runner_id) id
      running_inverse := mapInsert s.running_inverse (job_key id) runner_id }

/-- sled `delete_job`: drop the record, the queue entry, and the runner
binding in both directions. -/
def delete_job (s : SledStorage) (id : Nat) : SledStorage :=
  let s :=
    { s with
        jobinfo := mapRemove s.jobinfo (job_key id)
        queue := mapRemove s.queue (job_key id) }
  match mapLookup s.running_inverse (job_key id) with
  | some runner_id =>
      { s with
          running_inverse := mapRemove s.running_inverse (job_key id)
          running := mapRemove s.running (runner_key runner_id) }
  | none => s

/-- sled `update_stats`. -/
def update_stats (s : SledStorage) (f : Stats → Stats) : SledStorage :=
  { s with stats := f s.stats }

/-- The provided `Storage::return_job`, instantiated at the sled backend. -/
def return_job (s : SledStorage) (ret : ReturnJobInfo) (now : DateTime) :
    SledStorage :=
  if ret.result = JobResult.Failure then
    match fetch_job s ret.id with
    | some job =>
        let (retry, job) := job.needs_retry now
        if retry then
          let s := queue_job s job.queue ret.id
          let s := save_job s job
          update_stats s Stats.retry_job
        else
          let s := delete_job s ret.id
          update_stats s (fun st => st.fail_job now)
    | none => s
  else if ret.result = JobResult.MissingProcessor then
    match fetch_job s ret.id with
    | some job =>
        let job := job.pending now
        let s := queue_job s job.queue ret.id
        let s := save_job s job
        update_stats s Stats.retry_job
    | none => s
  else
    let s := delete_job s ret.id
    update_stats s (fun st => st.complete_job now)

end Sled

/-- `ReturnJobInfo::pass`. -/
def ReturnJobInfo.pass (id : Nat) : ReturnJobInfo :=
  { id := id, result := JobResult.Success }

/-- `ReturnJobInfo::fail`. -/
def ReturnJobInfo.fail (id : Nat) : ReturnJobInfo :=
  { id := id, result := JobResult.Failure }

/-- `ReturnJobInfo::missing_processor`. -/
def ReturnJobInfo.missing_processor (id : Nat) : ReturnJobInfo :=
  { id := id, result := JobResult.MissingProcessor }

/-- `JobError` from jobs-core/src/lib.rs; the wrapped `failure::Error` of
the `Processing` variant is opaque and modelled as a string. -/
inductive JobError where
  | Processing : String → JobError
  | Json : JobError
  | MissingProcessor : JobError
deriving DecidableEq, Repr

/-- `ProcessFn` from jobs-core/src/processor_map.rs: the type-erased handler
stored in the registry.  Running the returned future yields either unit or a
`JobError`; the deferred computation is modelled by its outcome. -/
def ProcessFn (S : Type) : Type := Value → S → Except JobError Unit

/-- `ProcessorMap` from jobs-core/src/processor_map.rs. -/
structure ProcessorMap (S : Type) where
  inner : List (String × ProcessFn S)
  state_fn : Unit → S

/-- The free function `process` in jobs-core/src/processor_map.rs: run the
handler on the job's arguments and map the outcome — `Ok` to `pass`, any
error to `fail`. -/
def process {S : Type} (process_fn : ProcessFn S) (state : S) (job : JobInfo) :
    ReturnJobInfo :=
  match process_fn job.args state with
  | Except.ok _ => ReturnJobInfo.pass job.id
  | Except.error _ => ReturnJobInfo.fail job.id

/-- `ProcessorMap::process_job`: look the processor name up; run the handler
when present, otherwise produce a `missing_processor` return record. -/
def ProcessorMap.process_job {S : Type} (pm : ProcessorMap S) (job : JobInfo) :
    ReturnJobInfo :=
  match mapLookup pm.inner job.processor with
  | some process_fn => process process_fn (pm.state_fn ()) job
  | none => ReturnJobInfo.missing_processor job.id

/-- The provided `Processor::process` method (jobs-core/src/processor.rs):
deserialize the arguments into the processor's payload type — `JobError::Json`
on decode failure — then run the job, wrapping its error as
`JobError::Processing`. -/
def Processor.process {S J : Type} (deser : Value → Option J)
    (run : J → S → Except String Unit) : ProcessFn S :=
  fun args state =>
    match deser args with
    | some job =>
        match run job state with
        | Except.ok u => Except.ok u
        | Except.error e => Except.error (JobError.Processing e)
    | none => Except.error JobError.Json

/-- `ProcessorMap::register_processor`: store the processor's `process`
closure under its `NAME` (overwriting a previous registration). -/
def ProcessorMap.register_processor {S J : Type} (pm : ProcessorMap S)
    (name : String) (deser : Value → Option J)
    (run : J → S → Except String Unit) : ProcessorMap S :=
  { pm with inner := mapInsert pm.inner name (Processor.process deser run) }

/-- One application of a `Stats` updater, as passed to `update_stats` by the
provided storage operations.  `fail_job` and `complete_job` read the wall
clock for the counter roll-over, so those carry the clock value. -/
inductive StatsOp where
  | new_job : StatsOp
  | run_job : StatsOp
  | retry_job : StatsOp
  | fail_job : DateTime → StatsOp
  | complete_job : DateTime → StatsOp

/-- Apply one stats update. -/
def applyStatsOp (s : Stats) : StatsOp → Stats
  | StatsOp.new_job => s.new_job
  | StatsOp.run_job => s.run_job
  | StatsOp.retry_job => s.retry_job
  | StatsOp.fail_job now => s.fail_job now
  | StatsOp.complete_job now => s.complete_job now

/-- Apply a sequence of stats updates, oldest first. -/
def applyStatsOps (s : Stats) (ops : List StatsOp) : Stats :=
  ops.foldl applyStatsOp s

/-- Iterate `return_job` with result `Failure` for a fixed id on the
in-memory backend: the evolution of the storage under an always-failing
job. -/
def iterate_failures (inner : Memory.Inner) (id : Nat) (now : DateTime) :
    Nat → Memory.Inner
  | 0 => inner
  | Nat.succ k =>
      iterate_failures
        (Memory.return_job inner { id := id, result := JobResult.Failure } now)
        id now k

theorem iterate_failures_succ (inner : Memory.Inner) (id : Nat)
    (now : DateTime) (k : Nat) :
    iterate_failures inner id now (k + 1) =
      Memory.return_job (iterate_failures inner id now k)
        { id := id, result := JobResult.Failure } now := by
  induction k generalizing inner with
  | zero => rfl
  | succ k ih =>
    show iterate_failures (Memory.return_job inner _ now) id now (k + 1) = _
    rw [ih]
    rfl

/-! Helper lemmas about the embedded operations. -/

theorem needs_retry_eq (job : JobInfo) (now : DateTime) :
    job.needs_retry now =
      (if ((job.max_retries.compare ((job.retry_count + 1) % 2 ^ 32)).should_requeue)
       then (true,
         (({ job with updated_at := now, retry_count := (job.retry_count + 1) % 2 ^ 32 }).pending now).set_next_queue now)
       else (false,
         { job with updated_at := now, retry_count := (job.retry_count + 1) % 2 ^ 32 })) := by
  rfl

theorem return_job_failure_retry (inner : Memory.Inner) (id : Nat)
    (job : JobInfo) (now : DateTime)
    (hf : Memory.fetch_job inner id = some job)
    (ht : (job.needs_retry now).1 = true) :
    Memory.return_job inner { id := id, result := JobResult.Failure } now =
      Memory.update_stats
        (Memory.save_job
          (Memory.queue_job inner (job.needs_retry now).2.queue id)
          (job.needs_retry now).2)
        Stats.retry_job := by
  unfold Memory.return_job
  rcases hnr : job.needs_retry now with ⟨r, j⟩
  rw [hnr] at ht
  simp at ht
  subst ht
  simp [hf, hnr]

theorem return_job_failure_dead (inner : Memory.Inner) (id : Nat)
    (job : JobInfo) (now : DateTime)
    (hf : Memory.fetch_job inner id = some job)
    (ht : (job.needs_retry now).1 = false) :
    Memory.return_job inner { id := id, result := JobResult.Failure } now =
      Memory.update_stats (Memory.delete_job inner id)
        (fun s => s.fail_job now) := by
  unfold Memory.return_job
  rcases hnr : job.needs_retry now with ⟨r, j⟩
  rw [hnr] at ht
  simp at ht
  subst ht
  simp [hf, hnr]

theorem jobstat_increment_all_time (s : JobStat) (now : DateTime) :
    (s.increment now).all_time = s.all_time + 1 := by
  unfold JobStat.increment JobStat.tick
  by_cases h1 : now.month ≠ s.updated_at.month <;>
  by_cases h2 : now.day ≠ s.updated_at.day <;>
  by_cases h3 : now.hour ≠ s.updated_at.hour <;>
  simp [h1, h2, h3]

theorem needs_retry_snd_fields (job : JobInfo) (now : DateTime) :
    (job.needs_retry now).2.retry_count = (job.retry_count + 1) % 2 ^ 32 ∧
    (job.needs_retry now).2.id = job.id ∧
    (job.needs_retry now).2.queue = job.queue ∧
    (job.needs_retry now).2.max_retries = job.max_retries := by
  rw [needs_retry_eq]
  cases hc : job.max_retries.compare ((job.retry_count + 1) % 2 ^ 32) <;>
    simp [ShouldStop.should_requeue, JobInfo.pending, JobInfo.set_next_queue,
      JobInfo.updated]

theorem stats_retry_job_dead (s : Stats) : (Stats.retry_job s).dead = s.dead := by
  unfold Stats.retry_job
  dsimp only
  split <;> rfl

theorem stats_fail_job_dead (s : Stats) (now : DateTime) :
    (Stats.fail_job s now).dead = s.dead.increment now := by
  unfold Stats.fail_job
  dsimp only
  split <;> rfl

theorem stats_complete_job_complete (s : Stats) (now : DateTime) :
    (Stats.complete_job s now).complete = s.complete.increment now := by
  unfold Stats.complete_job
  dsimp only
  split <;> rfl

theorem delete_job_jobs (inner : Memory.Inner) (id : Nat) :
    (Memory.delete_job inner id).jobs = mapRemove inner.jobs id := by
  unfold Memory.delete_job
  cases h : mapLookup inner.worker_ids id <;> simp [h]

theorem delete_job_stats (inner : Memory.Inner) (id : Nat) :
    (Memory.delete_job inner id).stats = inner.stats := by
  unfold Memory.delete_job
  cases h : mapLookup inner.worker_ids id <;> simp [h]

theorem needs_retry_true_of_count (job : JobInfo) (now : DateTime) (m : Nat)
    (hm : job.max_retries = MaxRetries.Count m)
    (hlt : job.retry_count + 1 < 2 ^ 32)
    (hle : job.retry_count + 1 ≤ m) :
    (job.needs_retry now).1 = true := by
  rw [needs_retry_eq, hm, Nat.mod_eq_of_lt hlt]
  simp [MaxRetries.compare, hle, ShouldStop.should_requeue]

theorem needs_retry_false_of_count (job : JobInfo) (now : DateTime) (m : Nat)
    (hm : job.max_retries = MaxRetries.Count m)
    (hlt : job.retry_count + 1 < 2 ^ 32)
    (hgt : ¬ job.retry_count + 1 ≤ m) :
    (job.needs_retry now).1 = false := by
  rw [needs_retry_eq, hm, Nat.mod_eq_of_lt hlt]
  simp [MaxRetries.compare, hgt, ShouldStop.should_requeue]

theorem needs_retry_true_of_infinite (job : JobInfo) (now : DateTime)
    (hm : job.max_retries = MaxRetries.Infinite) :
    (job.needs_retry now).1 = true := by
  rw [needs_retry_eq, hm]
  simp [MaxRetries.compare, ShouldStop.should_requeue]

theorem i64ofNat_of_lt (n : Nat) (h : n < 2 ^ 63) : i64ofNat n = (n : Int) := by
  unfold i64ofNat
  rw [Nat.mod_eq_of_lt (lt_trans h (by norm_num))]
  rw [if_pos h]

theorem needs_retry_requeue_cond (job : JobInfo) (now : DateTime)
    (ht : (job.needs_retry now).1 = true) :
    (job.max_retries.compare ((job.retry_count + 1) % 2 ^ 32)).should_requeue = true := by
  rw [needs_retry_eq] at ht
  by_cases h : (job.max_retries.compare ((job.retry_count + 1) % 2 ^ 32)).should_requeue = true
  · exact h
  · rw [if_neg h] at ht
    exact absurd ht (by simp)

theorem needs_retry_snd_next_queue (job : JobInfo) (now : DateTime)
    (ht : (job.needs_retry now).1 = true) :
    (job.needs_retry now).2.next_queue =
      some (now.addSecs (i64ofNat
        (match job.backoff_strategy with
         | Backoff.Linear secs => secs
         | Backoff.Exponential base =>
             base ^ ((job.retry_count + 1) % 2 ^ 32) % 2 ^ 64))) := by
  rw [needs_retry_eq, if_pos (needs_retry_requeue_cond job now ht)]
  simp [JobInfo.pending, JobInfo.set_next_queue, JobInfo.updated]

theorem statsop_preserves (s : Stats) (op : StatsOp)
    (hp : 0 ≤ s.pending) (hr : 0 ≤ s.running) :
    0 ≤ (applyStatsOp s op).pending ∧ 0 ≤ (applyStatsOp s op).running := by
  cases op <;>
    unfold applyStatsOp Stats.new_job Stats.run_job Stats.retry_job
      Stats.fail_job Stats.complete_job <;>
    dsimp only <;>
    (repeat' split) <;>
    refine ⟨?_, ?_⟩ <;>
    dsimp only <;>
    omega

/-! Concrete fixtures used to evaluate the embedded code on explicit
inputs. -/

/-- A reference instant (the clock is an input of every operation). -/
def t0 : DateTime := { sec := 0, month := 1, day := 1, hour := 0 }

/-- An instant 100 seconds after `t0`. -/
def tFut : DateTime := { sec := 100, month := 1, day := 1, hour := 0 }

/-- An all-zero rolling counter stamped at `t0`. -/
def emptyJobStat : JobStat :=
  { this_hour := 0, today := 0, this_month := 0, all_time := 0, updated_at := t0 }

/-- `Stats::default()`. -/
def emptyStats : Stats :=
  { pending := 0, running := 0, dead := emptyJobStat, complete := emptyJobStat }

/-- A freshly created in-memory storage (`memory_storage::Storage::new`). -/
def emptyInner : Memory.Inner :=
  { count := 0, jobs := [], queues := [], worker_ids := [],
    worker_ids_inverse := [], stats := emptyStats }

/-- A new job scheduled 100 seconds in the future, for queue `default`. -/
def c1_new : NewJobInfo :=
  { processor := "proc1", queue := "default", args := Value.null,
    max_retries := MaxRetries.Count 3,
    backoff_strategy := Backoff.Exponential 2,
    next_queue := some tFut }

/-- The in-memory storage after `new_job c1_new` at time `t0`: job 0 is
stored and queued in `default`, scheduled for `tFut`. -/
def c1_inner : Memory.Inner := (Memory.new_job emptyInner c1_new t0).2

/-- Claim C1: each job id is at all times queued XOR running XOR deleted,
and a candidate that `request_job` examined but did not dispatch remains
queued.  The in-memory backend violates this: starting from an empty
storage, `new_job` of a job scheduled 100 seconds in the future queues it;
a `request_job` on its queue before that time returns `None`, yet the job
has been removed from the queue map while still being stored and not
running — it is in no bucket, and nothing ever re-queues it.  This theorem
evaluates the code at that failing input. -/
theorem c1_memory_request_job_drops_scheduled_candidate :
    mapLookup c1_inner.queues 0 = some "default" ∧
    (Memory.request_job c1_inner "default" 1000 t0).1 = none ∧
    Memory.fetch_job (Memory.request_job c1_inner "default" 1000 t0).2 0 =
      some (c1_new.with_id 0 t0) ∧
    (c1_new.with_id 0 t0).status = JobStatus.Pending ∧
    mapLookup (Memory.request_job c1_inner "default" 1000 t0).2.queues 0 = none ∧
    (Memory.request_job c1_inner "default" 1000 t0).2.worker_ids = [] ∧
    (Memory.request_job c1_inner "default" 1000 t0).2.worker_ids_inverse = [] := by
  decide

/-- A stored job of queue `mail`, scheduled for `tFut`, hence not ready at
`t0`. -/
def c2_job : JobInfo :=
  { id := 4, processor := "proc2", queue := "mail", args := Value.num 7,
    status := JobStatus.Pending, retry_count := 0,
    max_retries := MaxRetries.Infinite, backoff_strategy := Backoff.Linear 5,
    next_queue := some tFut, updated_at := t0 }

/-- An in-memory storage holding only `c2_job`, queued in `mail`. -/
def c2_inner : Memory.Inner :=
  { count := 5, jobs := [(4, c2_job)], queues := [(4, "mail")],
    worker_ids := [], worker_ids_inverse := [], stats := emptyStats }

/-- Claim C2: `fetch_job_from_queue(q)` returns only a job of `q` that is
ready at the current time, and returns `Ok(None)` leaving the queue
unchanged when no queued job of `q` is ready.  The sled backend filters on
`is_ready`, but the in-memory backend does not consult readiness at all:
at time `t0` it returns the job scheduled for `tFut` (100 seconds later)
and removes it from the queue, contradicting the claim and the trait's own
documentation.  This theorem evaluates the code at that failing input. -/
theorem c2_memory_fetch_job_from_queue_ignores_readiness :
    (Memory.fetch_job_from_queue c2_inner "mail").1 = some c2_job ∧
    c2_job.is_ready t0 = false ∧
    mapLookup (Memory.fetch_job_from_queue c2_inner "mail").2.queues 4 = none := by
  decide

theorem update_stats_stats (inner : Memory.Inner) (f : Stats → Stats) :
    (Memory.update_stats inner f).stats = f inner.stats := rfl

theorem update_stats_jobs (inner : Memory.Inner) (f : Stats → Stats) :
    (Memory.update_stats inner f).jobs = inner.jobs := rfl

theorem c3_invariant (inner : Memory.Inner) (id n : Nat) (job : JobInfo)
    (now : DateTime)
    (hf : Memory.fetch_job inner id = some job)
    (hid : job.id = id)
    (hrc : job.retry_count = 0)
    (hmax : job.max_retries = MaxRetries.Count n)
    (hn : n + 1 < 2 ^ 32) :
    ∀ k, k ≤ n →
      ∃ jk, Memory.fetch_job (iterate_failures inner id now k) id = some jk ∧
        jk.retry_count = k ∧ jk.id = id ∧ jk.queue = job.queue ∧
        jk.max_retries = MaxRetries.Count n ∧
        (iterate_failures inner id now k).stats.dead = inner.stats.dead ∧
        (1 ≤ k → mapLookup (iterate_failures inner id now k).queues id = some job.queue) := by
  intro k
  induction k with
  | zero =>
    intro _
    exact ⟨job, hf, hrc, hid, rfl, hmax, rfl, by omega⟩
  | succ k ih =>
    intro hk
    obtain ⟨jk, hfk, hrck, hidk, hqk, hmk, hdk, _⟩ := ih (by omega)
    have hlt : jk.retry_count + 1 < 2 ^ 32 := by omega
    have ht : (jk.needs_retry now).1 = true :=
      needs_retry_true_of_count jk now n hmk hlt (by omega)
    have hstep := return_job_failure_retry (iterate_failures inner id now k) id jk now hfk ht
    obtain ⟨hf1, hf2, hf3, hf4⟩ := needs_retry_snd_fields jk now
    refine ⟨(jk.needs_retry now).2, ?_, ?_, ?_, ?_, ?_, ?_, ?_⟩
    · rw [iterate_failures_succ, hstep]
      show mapLookup (mapInsert _ (jk.needs_retry now).2.id _) id = _
      rw [hf2, hidk]
      exact mapLookup_insert_self _ _ _
    · rw [hf1, hrck]
      exact Nat.mod_eq_of_lt (hrck ▸ hlt)
    · rw [hf2, hidk]
    · rw [hf3, hqk]
    · rw [hf4, hmk]
    · rw [iterate_failures_succ, hstep]
      show (Stats.retry_job (iterate_failures inner id now k).stats).dead = _
      rw [stats_retry_job_dead, hdk]
    · intro _
      rw [iterate_failures_succ, hstep]
      show mapLookup (mapInsert (iterate_failures inner id now k).queues id (jk.needs_retry now).2.queue) id = _
      rw [mapLookup_insert_self, hf3, hqk]

/-- Claim C3: with `MaxRetries::Count(n)` a failed attempt is retried
exactly when the incremented retry count is at most `n`; a job whose every
attempt fails (starting from retry count 0) is still stored and queued
after each of the first `n` failures and is deleted, with the dead counter
incremented, on its `(n+1)`-th failure; `Count(0)` is the instance `n = 0`;
with `MaxRetries::Infinite` every failure is requeued. -/
theorem c3_max_retries_policy (inner : Memory.Inner) (id n : Nat)
    (job : JobInfo) (now : DateTime)
    (hf : Memory.fetch_job inner id = some job)
    (hid : job.id = id)
    (hrc : job.retry_count = 0)
    (hmax : job.max_retries = MaxRetries.Count n)
    (hn : n + 1 < 2 ^ 32) :
    (∀ (j : JobInfo) (m : Nat), j.max_retries = MaxRetries.Count m →
       j.retry_count + 1 < 2 ^ 32 →
       ((j.needs_retry now).1 = true ↔ j.retry_count + 1 ≤ m)) ∧
    (∀ j : JobInfo, j.max_retries = MaxRetries.Infinite →
       (j.needs_retry now).1 = true) ∧
    (∀ k, k ≤ n →
       ∃ jk, Memory.fetch_job (iterate_failures inner id now k) id = some jk ∧
         jk.retry_count = k ∧
         (1 ≤ k → mapLookup (iterate_failures inner id now k).queues id = some job.queue)) ∧
    Memory.fetch_job (iterate_failures inner id now (n + 1)) id = none ∧
    (iterate_failures inner id now (n + 1)).stats.dead.all_time =
      inner.stats.dead.all_time + 1 := by
  have hinv := c3_invariant inner id n job now hf hid hrc hmax hn
  refine ⟨?_, ?_, ?_, ?_, ?_⟩
  · intro j m hm hlt
    by_cases hle : j.retry_count + 1 ≤ m
    · simp [needs_retry_true_of_count j now m hm hlt hle, hle]
    · simp [needs_retry_false_of_count j now m hm hlt hle, hle]
  · intro j hm
    exact needs_retry_true_of_infinite j now hm
  · intro k hk
    obtain ⟨jk, hfk, hrck, _, _, _, _, hqk⟩ := hinv k hk
    exact ⟨jk, hfk, hrck, hqk⟩
  · obtain ⟨jn, hfn, hrcn, _, _, hmn, _, _⟩ := hinv n le_rfl
    have hlt : jn.retry_count + 1 < 2 ^ 32 := by rw [hrcn]; exact hn
    have hgt : ¬ jn.retry_count + 1 ≤ n := by rw [hrcn]; omega
    have hfalse := needs_retry_false_of_count jn now n hmn hlt hgt
    have hstep := return_job_failure_dead (iterate_failures inner id now n) id jn now hfn hfalse
    rw [iterate_failures_succ, hstep]
    unfold Memory.fetch_job
    rw [update_stats_jobs, delete_job_jobs, mapLookup_remove_self]
  · obtain ⟨jn, hfn, hrcn, _, _, hmn, hdn, _⟩ := hinv n le_rfl
    have hlt : jn.retry_count + 1 < 2 ^ 32 := by rw [hrcn]; exact hn
    have hgt : ¬ jn.retry_count + 1 ≤ n := by rw [hrcn]; omega
    have hfalse := needs_retry_false_of_count jn now n hmn hlt hgt
    have hstep := return_job_failure_dead (iterate_failures inner id now n) id jn now hfn hfalse
    rw [iterate_failures_succ, hstep]
    simp only [update_stats_stats]
    rw [stats_fail_job_dead, delete_job_stats, hdn, jobstat_increment_all_time]

/-- A stored running job with retry count 0 and `Count 2`, bound to
runner 1000. -/
def c3w_job : JobInfo :=
  { id := 0, processor := "proc3", queue := "q3", args := Value.null,
    status := JobStatus.Running, retry_count := 0,
    max_retries := MaxRetries.Count 2, backoff_strategy := Backoff.Linear 1,
    next_queue := none, updated_at := t0 }

/-- An in-memory storage holding only `c3w_job`, currently running. -/
def c3w_inner : Memory.Inner :=
  { count := 1, jobs := [(0, c3w_job)], queues := [],
    worker_ids := [(0, 1000)], worker_ids_inverse := [(1000, 0)],
    stats := emptyStats }

/-- Witness for C3: with `Count 2`, the third consecutive failure deletes
the job and increments the dead counter. -/
theorem c3_max_retries_policy_witness :
    Memory.fetch_job (iterate_failures c3w_inner 0 t0 3) 0 = none ∧
    (iterate_failures c3w_inner 0 t0 3).stats.dead.all_time =
      c3w_inner.stats.dead.all_time + 1 := by
  have h := c3_max_retries_policy c3w_inner 0 2 c3w_job t0 rfl rfl rfl rfl
    (by norm_num)
  exact ⟨h.2.2.2.1, h.2.2.2.2⟩

/-- Claim C4: when a failed attempt triggers a retry, `next_queue` is set
to `now + secs` under `Backoff::Linear(secs)` and to `now + base ^ r` under
`Backoff::Exponential(base)`, where `r` is the retry count after the
increment performed for that failure.  The side conditions bound the values
below `2^63` so that the `usize`-to-`i64` cast in the source is the
identity. -/
theorem c4_backoff_sets_next_queue (job : JobInfo) (now : DateTime)
    (hlt : job.retry_count + 1 < 2 ^ 32)
    (ht : (job.needs_retry now).1 = true) :
    (∀ secs : Nat, job.backoff_strategy = Backoff.Linear secs →
       secs < 2 ^ 63 →
       (job.needs_retry now).2.next_queue = some (now.addSecs (secs : Int))) ∧
    (∀ base : Nat, job.backoff_strategy = Backoff.Exponential base →
       base ^ (job.retry_count + 1) < 2 ^ 63 →
       (job.needs_retry now).2.next_queue =
         some (now.addSecs ((base ^ (job.retry_count + 1) : Nat) : Int))) := by
  have hnq := needs_retry_snd_next_queue job now ht
  rw [Nat.mod_eq_of_lt hlt] at hnq
  constructor
  · intro secs hb hs
    rw [hb] at hnq
    simp only [] at hnq
    rw [hnq, i64ofNat_of_lt secs hs]
  · intro base hb hs
    rw [hb] at hnq
    simp only [] at hnq
    rw [hnq, Nat.mod_eq_of_lt (lt_trans hs (by norm_num)),
      i64ofNat_of_lt _ hs]

/-- A running job with retry count 0 and exponential backoff with base 2. -/
def c4w_job : JobInfo :=
  { id := 2, processor := "proc4", queue := "q4", args := Value.null,
    status := JobStatus.Running, retry_count := 0,
    max_retries := MaxRetries.Count 5,
    backoff_strategy := Backoff.Exponential 2,
    next_queue := none, updated_at := t0 }

/-- Witness for C4: the first failure with base 2 schedules the retry two
seconds after `now`. -/
theorem c4_backoff_sets_next_queue_witness :
    (c4w_job.needs_retry t0).2.next_queue = some (t0.addSecs 2) := by
  have h := c4_backoff_sets_next_queue c4w_job t0 (by decide) (by decide)
  have h2 := h.2 2 rfl (by decide)
  simpa [c4w_job] using h2

/-- An in-memory storage in which job 7 is bound to runner 1001. -/
def c5_inner : Memory.Inner :=
  { count := 8, jobs := [], queues := [], worker_ids := [(7, 1001)],
    worker_ids_inverse := [(1001, 7)], stats := emptyStats }

/-- Counterexample to claim C5 as stated: the in-memory backend's
`queue_job` places the id into the queue but leaves the runner binding in
place in both directions (only the sled backend clears it). -/
theorem c5_memory_queue_job_keeps_runner_binding :
    mapLookup (Memory.queue_job c5_inner "default" 7).queues 7 = some "default" ∧
    mapLookup (Memory.queue_job c5_inner "default" 7).worker_ids 7 = some 1001 ∧
    mapLookup (Memory.queue_job c5_inner "default" 7).worker_ids_inverse 1001 = some 7 := by
  decide

/-- Claim C5 as amended: `queue_job(queue, id)` places the id into the
named queue on both backends; the sled backend additionally clears a
previous runner binding in both directions before queueing, while the
in-memory backend leaves its runner maps untouched. -/
theorem c5_queue_job_amended (s : Sled.SledStorage) (inner : Memory.Inner)
    (q : String) (id : Nat) :
    mapLookup (Sled.queue_job s q id).queue (Sled.job_key id) = some q ∧
    mapLookup (Sled.queue_job s q id).running_inverse (Sled.job_key id) = none ∧
    (∀ r, mapLookup s.running_inverse (Sled.job_key id) = some r →
       mapLookup (Sled.queue_job s q id).running (Sled.runner_key r) = none) ∧
    mapLookup (Memory.queue_job inner q id).queues id = some q ∧
    (Memory.queue_job inner q id).worker_ids = inner.worker_ids ∧
    (Memory.queue_job inner q id).worker_ids_inverse = inner.worker_ids_inverse := by
  unfold Sled.queue_job
  refine ⟨?_, ?_, ?_, ?_, rfl, rfl⟩
  · cases h : mapLookup s.running_inverse (Sled.job_key id) <;>
      simp [h, mapLookup_insert_self]
  · cases h : mapLookup s.running_inverse (Sled.job_key id) <;> simp [h]
  · intro r hr
    simp [hr]
  · show mapLookup (mapInsert inner.queues id q) id = some q
    rw [mapLookup_insert_self]

/-- A sled storage in which job 3 is bound to runner 42. -/
def c5w_sled : Sled.SledStorage :=
  { jobinfo := [], running := [(Sled.runner_key 42, 3)],
    running_inverse := [(Sled.job_key 3, 42)], queue := [],
    stats := emptyStats }

/-- Witness for the amended C5: queueing running job 3 on the sled backend
removes the binding of runner 42 and records the queue entry. -/
theorem c5_queue_job_amended_witness :
    mapLookup (Sled.queue_job c5w_sled "default" 3).running (Sled.runner_key 42) = none ∧
    mapLookup (Sled.queue_job c5w_sled "default" 3).queue (Sled.job_key 3) = some "default" := by
  have h := c5_queue_job_amended c5w_sled emptyInner "default" 3
  exact ⟨h.2.2.1 42 (by decide), h.1⟩

/-- A running job, stored and bound to runner 1000, with running count 1 in
the stats. -/
def c6_job : JobInfo :=
  { id := 9, processor := "proc6", queue := "q6", args := Value.null,
    status := JobStatus.Running, retry_count := 0,
    max_retries := MaxRetries.Count 1, backoff_strategy := Backoff.Linear 1,
    next_queue := none, updated_at := t0 }

/-- The in-memory storage holding only the running `c6_job`. -/
def c6_inner0 : Memory.Inner :=
  { count := 10, jobs := [(9, c6_job)], queues := [],
    worker_ids := [(9, 1000)], worker_ids_inverse := [(1000, 9)],
    stats := { emptyStats with running := 1 } }

/-- The state after the first `return_job` with result `Success` for id 9. -/
def c6_inner1 : Memory.Inner :=
  Memory.return_job c6_inner0 { id := 9, result := JobResult.Success } t0

/-- The state after a second `return_job(Success)` for the same id. -/
def c6_inner2 : Memory.Inner :=
  Memory.return_job c6_inner1 { id := 9, result := JobResult.Success } t0

/-- Counterexample to claim C6 as stated: after the first
`return_job(Success)` has deleted job 9, a second identical call leaves the
job records unchanged but is not a no-op on the `Stats` record — the
success branch never checks whether the job still exists and re-applies
`Stats::complete_job`, incrementing the complete counter again. -/
theorem c6_second_success_return_bumps_complete :
    Memory.fetch_job c6_inner1 9 = none ∧
    c6_inner2.jobs = c6_inner1.jobs ∧
    c6_inner2.stats ≠ c6_inner1.stats ∧
    c6_inner2.stats.complete.all_time = c6_inner1.stats.complete.all_time + 1 := by
  decide

/-- Claim C6 as amended: once the job is gone (no record, no queue entry,
no runner binding), a repeated `return_job(Success)` leaves every job map
unchanged, but it still applies `Stats::complete_job`, which increments the
complete counter's all-time tally by one each call. -/
theorem c6_success_return_amended (inner : Memory.Inner) (id : Nat)
    (now : DateTime)
    (hj : Memory.fetch_job inner id = none)
    (hq : mapLookup inner.queues id = none)
    (hw : mapLookup inner.worker_ids id = none) :
    Memory.return_job inner { id := id, result := JobResult.Success } now =
      { inner with stats := inner.stats.complete_job now } ∧
    (inner.stats.complete_job now).complete.all_time =
      inner.stats.complete.all_time + 1 := by
  constructor
  · unfold Memory.return_job
    simp only [reduceCtorEq, if_false]
    have hdel : Memory.delete_job inner id = inner := by
      unfold Memory.delete_job
      rw [mapRemove_of_lookup_none inner.jobs id hj,
        mapRemove_of_lookup_none inner.queues id hq]
      simp [hw]
    rw [hdel]
    rfl
  · rw [stats_complete_job_complete, jobstat_increment_all_time]

/-- Witness for the amended C6: on the empty storage, returning `Success`
for an unknown id only applies `Stats::complete_job`. -/
theorem c6_success_return_amended_witness :
    Memory.return_job emptyInner { id := 5, result := JobResult.Success } t0 =
      { emptyInner with stats := emptyInner.stats.complete_job t0 } :=
  (c6_success_return_amended emptyInner 5 t0 rfl rfl rfl).1

/-- Claim C7: `return_job` with result `MissingProcessor` on a stored job
resets its status to `Pending`, re-queues it into its own queue, leaves the
retry count unchanged, records a retry in the stats (`Stats::retry_job`),
and does not touch the runner maps. -/
theorem c7_missing_processor_requeues_pending (inner : Memory.Inner)
    (id : Nat) (job : JobInfo) (now : DateTime)
    (hf : Memory.fetch_job inner id = some job)
    (hid : job.id = id) :
    mapLookup (Memory.return_job inner { id := id, result := JobResult.MissingProcessor } now).queues id = some job.queue ∧
    mapLookup (Memory.return_job inner { id := id, result := JobResult.MissingProcessor } now).jobs id = some (job.pending now) ∧
    (job.pending now).retry_count = job.retry_count ∧
    (job.pending now).status = JobStatus.Pending ∧
    (Memory.return_job inner { id := id, result := JobResult.MissingProcessor } now).stats = Stats.retry_job inner.stats ∧
    (Memory.return_job inner { id := id, result := JobResult.MissingProcessor } now).worker_ids = inner.worker_ids ∧
    (Memory.return_job inner { id := id, result := JobResult.MissingProcessor } now).worker_ids_inverse = inner.worker_ids_inverse := by
  have hstep : Memory.return_job inner { id := id, result := JobResult.MissingProcessor } now =
      Memory.update_stats
        (Memory.save_job (Memory.queue_job inner (job.pending now).queue id)
          (job.pending now))
        Stats.retry_job := by
    unfold Memory.return_job
    simp [hf]
  rw [hstep]
  refine ⟨?_, ?_, rfl, rfl, rfl, rfl, rfl⟩
  · show mapLookup (mapInsert inner.queues id (job.pending now).queue) id = _
    rw [mapLookup_insert_self]
    rfl
  · show mapLookup (mapInsert inner.jobs (job.pending now).id (job.pending now)) id = _
    have hpid : (job.pending now).id = id := hid
    rw [hpid, mapLookup_insert_self]

/-- A running job with retry count 3, stored under id 4. -/
def c7w_job : JobInfo :=
  { id := 4, processor := "proc7", queue := "q7", args := Value.str "x",
    status := JobStatus.Running, retry_count := 3,
    max_retries := MaxRetries.Count 5, backoff_strategy := Backoff.Linear 2,
    next_queue := none, updated_at := t0 }

/-- An in-memory storage holding only the running `c7w_job`. -/
def c7w_inner : Memory.Inner :=
  { count := 5, jobs := [(4, c7w_job)], queues := [],
    worker_ids := [(4, 1002)], worker_ids_inverse := [(1002, 4)],
    stats := { emptyStats with running := 1 } }

/-- Witness for C7: job 4 is re-queued into its queue `q7` with its retry
count still 3. -/
theorem c7_missing_processor_requeues_pending_witness :
    mapLookup (Memory.return_job c7w_inner { id := 4, result := JobResult.MissingProcessor } t0).queues 4 = some "q7" ∧
    (c7w_job.pending t0).retry_count = 3 := by
  have h := c7_missing_processor_requeues_pending c7w_inner 4 c7w_job t0 rfl rfl
  exact ⟨h.1, h.2.2.1⟩

/-- Claim C8: with a processor registered under the job's name whose
handler is the provided `Processor::process`, arguments that fail to
deserialize produce `JobError::Json` and a `Failure` return record — never
`MissingProcessor`; and `process_job` yields `MissingProcessor` exactly
when no processor is registered under the job's processor name. -/
theorem c8_process_job_error_classification (S J : Type)
    (pm : ProcessorMap S) (job : JobInfo)
    (deser : Value → Option J) (run : J → S → Except String Unit) :
    (mapLookup pm.inner job.processor = some (Processor.process deser run) →
       deser job.args = none →
       Processor.process deser run job.args (pm.state_fn ()) =
         Except.error JobError.Json ∧
       (pm.process_job job).result = JobResult.Failure) ∧
    ((pm.process_job job).result = JobResult.MissingProcessor ↔
       mapLookup pm.inner job.processor = none) := by
  constructor
  · intro h hd
    constructor
    · unfold Processor.process
      rw [hd]
    · unfold ProcessorMap.process_job
      rw [h]
      simp only [process, Processor.process]
      rw [hd]
      rfl
  · unfold ProcessorMap.process_job
    cases hl : mapLookup pm.inner job.processor with
    | none => simp [ReturnJobInfo.missing_processor]
    | some f =>
      simp only [process]
      cases hr : f job.args (pm.state_fn ()) <;>
        simp [hr, ReturnJobInfo.pass, ReturnJobInfo.fail]

/-- A registry over trivial state with one processor, `proc8`, whose
deserializer rejects every argument value. -/
def c8w_pm : ProcessorMap Unit :=
  { inner := [("proc8",
      Processor.process (fun _ => (none : Option Nat))
        (fun _ _ => Except.ok ()))],
    state_fn := fun _ => () }

/-- A job naming the registered processor `proc8`. -/
def c8w_job : JobInfo :=
  { id := 1, processor := "proc8", queue := "q8", args := Value.num 3,
    status := JobStatus.Running, retry_count := 0,
    max_retries := MaxRetries.Count 1, backoff_strategy := Backoff.Linear 1,
    next_queue := none, updated_at := t0 }

/-- Witness for C8: the registered-but-undeserializable job comes back as a
`Failure`, not as `MissingProcessor`. -/
theorem c8_process_job_error_classification_witness :
    (c8w_pm.process_job c8w_job).result = JobResult.Failure :=
  ((c8_process_job_error_classification Unit Nat c8w_pm c8w_job
    (fun _ => (none : Option Nat)) (fun _ _ => Except.ok ())).1 rfl rfl).2

/-- Claim C9: over any sequence of the updates `new_job`, `run_job`,
`retry_job`, `fail_job` and `complete_job`, the pending and running counts
never become negative, because every decrement is guarded by a positivity
test — a decrement applied at zero is a no-op, not a wrap-around. -/
theorem c9_stats_counts_never_negative (s : Stats) (ops : List StatsOp)
    (now : DateTime)
    (hp : 0 ≤ s.pending) (hr : 0 ≤ s.running) :
    (0 ≤ (applyStatsOps s ops).pending ∧ 0 ≤ (applyStatsOps s ops).running) ∧
    (s.pending = 0 → (Stats.run_job s).pending = 0) ∧
    (s.running = 0 →
      (Stats.retry_job s).running = 0 ∧
      (Stats.fail_job s now).running = 0 ∧
      (Stats.complete_job s now).running = 0) := by
  refine ⟨?_, ?_, ?_⟩
  · induction ops generalizing s with
    | nil => exact ⟨hp, hr⟩
    | cons op rest ih =>
      have h := statsop_preserves s op hp hr
      exact ih (applyStatsOp s op) h.1 h.2
  · intro h
    unfold Stats.run_job
    simp [h]
  · intro h
    unfold Stats.retry_job Stats.fail_job Stats.complete_job
    simp [h]

/-- Witness for C9: a concrete update sequence starting from the default
stats keeps both counts non-negative, and the decrements at zero are
no-ops. -/
theorem c9_stats_counts_never_negative_witness :
    (0 ≤ (applyStatsOps emptyStats
        [StatsOp.run_job, StatsOp.retry_job, StatsOp.complete_job t0]).pending ∧
     0 ≤ (applyStatsOps emptyStats
        [StatsOp.run_job, StatsOp.retry_job, StatsOp.complete_job t0]).running) ∧
    (Stats.run_job emptyStats).pending = 0 := by
  have h := c9_stats_counts_never_negative emptyStats
    [StatsOp.run_job, StatsOp.retry_job, StatsOp.complete_job t0] t0
    (by decide) (by decide)
  exact ⟨h.1, h.2.1 rfl⟩

/-- An empty sled storage. -/
def c10w_sled : Sled.SledStorage :=
  { jobinfo := [], running := [], running_inverse := [], queue := [],
    stats := emptyStats }

/-- Claim C10: on both backends, `return_job` with result `Failure` or
`MissingProcessor` for an id that is not stored returns without modifying
anything — no job record, queue entry, runner binding, or stats field. -/
theorem c10_return_job_unknown_id_noop (inner : Memory.Inner)
    (s : Sled.SledStorage) (id : Nat) (now : DateTime)
    (hm : Memory.fetch_job inner id = none)
    (hs : Sled.fetch_job s id = none) :
    Memory.return_job inner { id := id, result := JobResult.Failure } now = inner ∧
    Memory.return_job inner { id := id, result := JobResult.MissingProcessor } now = inner ∧
    Sled.return_job s { id := id, result := JobResult.Failure } now = s ∧
    Sled.return_job s { id := id, result := JobResult.MissingProcessor } now = s := by
  refine ⟨?_, ?_, ?_, ?_⟩ <;>
    first
      | (unfold Memory.return_job; simp [hm])
      | (unfold Sled.return_job; simp [hs])

/-- Witness for C10: returning a failure for id 99 on the empty stores
changes nothing. -/
theorem c10_return_job_unknown_id_noop_witness :
    Memory.return_job emptyInner { id := 99, result := JobResult.Failure } t0 = emptyInner ∧
    Sled.return_job c10w_sled { id := 99, result := JobResult.Failure } t0 = c10w_sled := by
  have h := c10_return_job_unknown_id_noop emptyInner c10w_sled 99 t0 rfl rfl
  exact ⟨h.1, h.2.2.1⟩

end BackJob
